import Mathlib

/-!
Verification of `src/lib/ai.ts`: the Groq request dispatcher (`callAI`),
the JSON extractor (`coerceToJSONObject`) and the schema normalizer
(`normalizeToSchema`).

The dynamic JavaScript values flowing between the extractor and the
normalizer are modelled by the inductive type `JValue` (a tagged union over
null / bool / number / string / array / object, as the spec's design notes
suggest). `JSON.parse` is modelled by `jsonParse`, an executable
recursive-descent reading of the JSON grammar; the model covers the integer
fragment of JSON number literals (fractional and exponent literals are
outside the model — none of the verified properties depend on them).
-/

set_option autoImplicit false

namespace RepairAI

/-- A decoded JavaScript/JSON value: the loosely-typed intermediate value
between the extractor and the normalizer. -/
inductive JValue where
  | null : JValue
  | bool : Bool → JValue
  | num : Int → JValue
  | str : String → JValue
  | arr : List JValue → JValue
  | obj : List (String × JValue) → JValue

/-- JavaScript property read `v?.k` / `v.k` for the keys this module uses:
an object yields its field (last duplicate wins, as after `JSON.parse`),
every other value yields `undefined` (modelled as `none`). -/
def getField (v : JValue) (k : String) : Option JValue :=
  match v with
  | JValue.obj fields =>
      fields.foldl (fun acc p => if p.1 = k then some p.2 else acc) none
  | _ => none

/-- The ASCII whitespace trimmed by JavaScript `String.prototype.trim`
(the model omits the non-ASCII whitespace code points). -/
def isJsWhitespace (c : Char) : Bool :=
  c = ' ' || c = '\t' || c = '\n' || c = '\r' || c = Char.ofNat 11 || c = Char.ofNat 12

/-- Model of JavaScript `text.trim()`. -/
def jsTrim (s : String) : String :=
  String.mk (((s.data.dropWhile isJsWhitespace).reverse.dropWhile isJsWhitespace).reverse)

/-- JSON insignificant whitespace (RFC 8259: space, tab, newline, return). -/
def skipWs : List Char → List Char
  | [] => []
  | c :: cs => if c = ' ' || c = '\t' || c = '\n' || c = '\r' then skipWs cs else c :: cs

/-- Value of a hexadecimal digit, for `\u` escapes. -/
def hexDigit? (c : Char) : Option Nat :=
  if '0' ≤ c ∧ c ≤ '9' then some (c.toNat - 48)
  else if 'a' ≤ c ∧ c ≤ 'f' then some (c.toNat - 87)
  else if 'A' ≤ c ∧ c ≤ 'F' then some (c.toNat - 55)
  else none

/-- Parse the body of a JSON string literal (the opening quote already
consumed), returning the decoded characters and the input after the closing
quote. Handles the JSON escapes and rejects raw control characters. -/
def parseStringBody : Nat → List Char → Option (List Char × List Char)
  | 0, _ => none
  | _, [] => none
  | fuel + 1, c :: cs =>
    if c = '"' then some ([], cs)
    else if c = '\\' then
      match cs with
      | [] => none
      | e :: cs2 =>
        if e = 'u' then
          match cs2 with
          | h1 :: h2 :: h3 :: h4 :: cs3 =>
            match hexDigit? h1, hexDigit? h2, hexDigit? h3, hexDigit? h4 with
            | some a, some b, some c2, some d =>
              match parseStringBody fuel cs3 with
              | some (out, rest) =>
                  some (Char.ofNat (((a * 16 + b) * 16 + c2) * 16 + d) :: out, rest)
              | none => none
            | _, _, _, _ => none
          | _ => none
        else
          let ec : Option Char :=
            if e = '"' then some '"'
            else if e = '\\' then some '\\'
            else if e = '/' then some '/'
            else if e = 'b' then some (Char.ofNat 8)
            else if e = 'f' then some (Char.ofNat 12)
            else if e = 'n' then some '\n'
            else if e = 'r' then some '\r'
            else if e = 't' then some '\t'
            else none
          match ec with
          | some ch =>
            match parseStringBody fuel cs2 with
            | some (out, rest) => some (ch :: out, rest)
            | none => none
          | none => none
    else if c.toNat < 32 then none
    else
      match parseStringBody fuel cs with
      | some (out, rest) => some (c :: out, rest)
      | none => none

/-- Parse a run of decimal digits. -/
def parseNat (cs : List Char) : Option (Nat × List Char) :=
  let ds := cs.takeWhile (fun c => c.isDigit)
  if ds.isEmpty then none
  else some (ds.foldl (fun a c => a * 10 + (c.toNat - 48)) 0, cs.drop ds.length)

/-- Parse a JSON number literal, integer fragment: optional minus, no
leading zeros, and no fractional part or exponent (literals with `.`, `e`
or `E` are outside the modelled fragment and are rejected). -/
def parseNumber (cs : List Char) : Option (JValue × List Char) :=
  let (neg, cs1) := match cs with
    | '-' :: r => (true, r)
    | _ => (false, cs)
  match cs1 with
  | '0' :: d :: _ =>
    if d.isDigit then none
    else if d = '.' || d = 'e' || d = 'E' then none
    else some (JValue.num 0, cs1.drop 1)
  | _ =>
    match parseNat cs1 with
    | none => none
    | some (n, rest) =>
      match rest with
      | r :: _ =>
        if r = '.' || r = 'e' || r = 'E' then none
        else some (JValue.num (if neg then -(n : Int) else (n : Int)), rest)
      | [] => some (JValue.num (if neg then -(n : Int) else (n : Int)), rest)

mutual

/-- Fuelled recursive-descent parser for a JSON value. -/
def parseVal : Nat → List Char → Option (JValue × List Char)
  | 0, _ => none
  | fuel + 1, cs =>
    match skipWs cs with
    | [] => none
    | c :: rest =>
      if c = '{' then
        match parseObjFields fuel (skipWs rest) true with
        | some (fs, r) => some (JValue.obj fs, r)
        | none => none
      else if c = '[' then
        match parseArrElems fuel (skipWs rest) true with
        | some (vs, r) => some (JValue.arr vs, r)
        | none => none
      else if c = '"' then
        match parseStringBody (rest.length + 1) rest with
        | some (out, r) => some (JValue.str (String.mk out), r)
        | none => none
      else if c = 't' then
        match rest with
        | 'r' :: 'u' :: 'e' :: r => some (JValue.bool true, r)
        | _ => none
      else if c = 'f' then
        match rest with
        | 'a' :: 'l' :: 's' :: 'e' :: r => some (JValue.bool false, r)
        | _ => none
      else if c = 'n' then
        match rest with
        | 'u' :: 'l' :: 'l' :: r => some (JValue.null, r)
        | _ => none
      else if c = '-' || c.isDigit then parseNumber (c :: rest)
      else none

/-- Parse the elements of a JSON array after `[` (input whitespace-skipped);
`first` is true while no element has been parsed yet, so `]` closes. -/
def parseArrElems : Nat → List Char → Bool → Option (List JValue × List Char)
  | 0, _, _ => none
  | fuel + 1, cs, first =>
    match cs with
    | ']' :: r =>
      if first then some ([], r)
      else
        match parseVal fuel cs with
        | _ => none
    | _ =>
      match parseVal fuel cs with
      | none => none
      | some (v, r1) =>
        match skipWs r1 with
        | ',' :: r2 =>
          match parseArrElems fuel (skipWs r2) false with
          | some (vs, r3) => some (v :: vs, r3)
          | none => none
        | ']' :: r2 => some ([v], r2)
        | _ => none

/-- Parse the members of a JSON object after `{` (input whitespace-skipped);
`first` is true while no member has been parsed yet, so `}` closes. -/
def parseObjFields : Nat → List Char → Bool → Option (List (String × JValue) × List Char)
  | 0, _, _ => none
  | fuel + 1, cs, first =>
    match cs with
    | '}' :: r =>
      if first then some ([], r) else none
    | '"' :: r =>
      match parseStringBody (r.length + 1) r with
      | none => none
      | some (key, r1) =>
        match skipWs r1 with
        | ':' :: r2 =>
          match parseVal fuel r2 with
          | none => none
          | some (v, r3) =>
            match skipWs r3 with
            | ',' :: r4 =>
              match parseObjFields fuel (skipWs r4) false with
              | some (fs, r5) => some ((String.mk key, v) :: fs, r5)
              | none => none
            | '}' :: r4 => some ([(String.mk key, v)], r4)
            | _ => none
        | _ => none
    | _ => none

end

/-- Model of `JSON.parse`: parse one JSON value and require that only
whitespace follows it; anything else is a parse error (`none`). The fuel
`2 * s.length + 2` exceeds the parser's possible recursion depth. -/
def jsonParse (s : String) : Option JValue :=
  match parseVal (2 * s.length + 2) s.data with
  | some (v, rest) => if (skipWs rest).isEmpty then some v else none
  | none => none

/-- Characters opening a JSON-like fragment, the class at the start of the
source regex `([\[{][\s\S]*[\]}])`. -/
def isOpenBracket (c : Char) : Bool :=
  c = '[' || c = Char.ofNat 123

/-- Characters closing a JSON-like fragment, the class at the end of the
source regex. -/
def isCloseBracket (c : Char) : Bool :=
  c = ']' || c = Char.ofNat 125

/-- Model of `raw.match(regex)[1]` for the regex `([\[{][\s\S]*[\]}])`:
the leftmost-starting, greedy match runs from the first opening bracket to
the last closing bracket of the whole text (of either kind, not necessarily
matching the opener), provided the closer comes strictly later. -/
def bracketMatch (raw : String) : Option String :=
  let cs := raw.data
  match cs.findIdx? isOpenBracket with
  | none => none
  | some i =>
    match cs.reverse.findIdx? isCloseBracket with
    | none => none
    | some k =>
      let j := cs.length - 1 - k
      if i < j then some (String.mk ((cs.drop i).take (j - i + 1))) else none

/-- `coerceToJSONObject` from `src/lib/ai.ts`: trim, try a strict parse,
then try the bracketed-substring recovery, else wrap the trimmed text in a
single-field `message` object. -/
def coerceToJSONObject (text : String) : JValue :=
  let raw := jsTrim text
  match jsonParse raw with
  | some v => v
  | none =>
    match bracketMatch raw with
    | some sub =>
      match jsonParse sub with
      | some v => v
      | none => JValue.obj [("message", JValue.str raw)]
    | none => JValue.obj [("message", JValue.str raw)]

/-- The `NormalizedData` record from `src/lib/ai.ts`. -/
structure NormalizedData where
  overview : String
  diagnostic_steps : List String
  repair_steps : List String
  tools_needed : List String
  time_estimate : String
  cost_estimate : String
  parts : List String
  videos : List String
deriving DecidableEq

mutual

/-- JavaScript `String(v)` conversion as used by `.map(String)`. The flag
records whether the value is being rendered inside an array join, where
`null` prints as the empty string instead of `"null"`. -/
def jsStringAux : Bool → JValue → String
  | inArr, JValue.null => if inArr then "" else "null"
  | _, JValue.bool b => if b then "true" else "false"
  | _, JValue.num i => toString i
  | _, JValue.str s => s
  | _, JValue.obj _ => "[object Object]"
  | _, JValue.arr xs => String.intercalate "," (jsStringList xs)

/-- The elements of an array rendered for JavaScript's `Array` join. -/
def jsStringList : List JValue → List String
  | [] => []
  | v :: vs => jsStringAux true v :: jsStringList vs

end

/-- JavaScript `String(v)`. -/
def jsString (v : JValue) : String :=
  jsStringAux false v

/-- `normalizeToSchema` from `src/lib/ai.ts`. -/
def normalizeToSchema (obj : JValue) : NormalizedData :=
  { overview :=
      match getField obj "overview" with
      | some (JValue.str s) => s
      | _ =>
        match getField obj "summary" with
        | some (JValue.str s) => s
        | _ =>
          match getField obj "message" with
          | some (JValue.str s) => s
          | _ => "No overview available"
    diagnostic_steps :=
      match getField obj "diagnostic_steps" with
      | some (JValue.arr xs) => xs.map jsString
      | _ => []
    repair_steps :=
      match getField obj "repair_steps" with
      | some (JValue.arr xs) => xs.map jsString
      | _ => []
    tools_needed :=
      match getField obj "tools_needed" with
      | some (JValue.arr xs) => xs.map jsString
      | _ => []
    time_estimate :=
      match getField obj "time_estimate" with
      | some (JValue.str s) => s
      | _ => "N/A"
    cost_estimate :=
      match getField obj "cost_estimate" with
      | some (JValue.str s) => s
      | _ => "N/A"
    parts := []
    videos := [] }

/-- The `NormalizedData` record viewed again as a decoded value, for feeding
`normalizeToSchema` its own output (in the source both are untyped `any`
JavaScript objects, so this re-reading is the identity there). -/
def toJValue (r : NormalizedData) : JValue :=
  JValue.obj
    [("overview", JValue.str r.overview),
     ("diagnostic_steps", JValue.arr (r.diagnostic_steps.map JValue.str)),
     ("repair_steps", JValue.arr (r.repair_steps.map JValue.str)),
     ("tools_needed", JValue.arr (r.tools_needed.map JValue.str)),
     ("time_estimate", JValue.str r.time_estimate),
     ("cost_estimate", JValue.str r.cost_estimate),
     ("parts", JValue.arr (r.parts.map JValue.str)),
     ("videos", JValue.arr (r.videos.map JValue.str))]

/-- Follows the spec's words (claim C2): the `overview` fallback chain —
the value's `overview` field if it is text, else its `summary` text field,
else its `message` text field, else the fixed placeholder. -/
def specOverview (v : JValue) : String :=
  match getField v "overview" with
  | some (JValue.str s) => s
  | _ =>
    match getField v "summary" with
    | some (JValue.str s) => s
    | _ =>
      match getField v "message" with
      | some (JValue.str s) => s
      | _ => "No overview available"

/-- Follows the spec's words (claim C6): a sequence field's elements
coerced to text if the field is a sequence, otherwise the empty sequence. -/
def specStringSeq (v : JValue) (key : String) : List String :=
  match getField v key with
  | some (JValue.arr xs) => xs.map jsString
  | _ => []

/-- Follows the spec's words (claim C1): whether a decoded value has at
least one field a downstream consumer can access and surface. Field access
on `null` throws in JavaScript; an object or array surfaces its own
entries; a string surfaces its characters; numbers and booleans own no
fields. -/
def hasAccessibleField : JValue → Bool
  | JValue.null => false
  | JValue.bool _ => false
  | JValue.num _ => false
  | JValue.str s => !s.isEmpty
  | JValue.arr xs => !xs.isEmpty
  | JValue.obj fs => !fs.isEmpty

/-- The error taxonomy of `callAI`:
configuration error (missing credential, thrown before any request),
provider error (non-success HTTP status, carrying the status code and the
response body text, rendered in the source as the message
`Groq error: <status> <body>`), a syntax error from `response.json()` on a
non-JSON success body, and the type error JavaScript raises when the chain
`data.choices?.[0]?.message?.content?.trim()` reads a property of `null`
data or calls `.trim()` on a non-string content value. -/
inductive CallError where
  | config : String → CallError
  | provider : Nat → String → CallError
  | badBody : CallError
  | typeError : CallError
deriving DecidableEq

/-- One message of the two-message conversation sent to the provider. -/
structure ChatMessage where
  role : String
  content : String
deriving DecidableEq

/-- The outbound request `callAI` builds for
`POST https://api.groq.com/openai/v1/chat/completions`. The sampling
temperature (0.7 in the source) is a floating-point generation parameter
and is not modelled. -/
structure GroqRequest where
  url : String
  bearer : String
  model : String
  messages : List ChatMessage
  maxTokens : Nat
  responseFormatJsonObject : Bool
deriving DecidableEq

/-- The fixed system instruction block from `src/lib/ai.ts`. -/
def systemPrompt : String := "
You are obuddy5000, a professional auto mechanic assistant.

Your task: create **extremely detailed, beginner-friendly step-by-step repair guides**. Assume the user knows nothing about cars.

Diagnostic steps instructions:
- Suggest **how to isolate the problem**. For example, if a misfire occurs on cylinder 3, suggest swapping spark plugs or coils to different cylinders to see if the misfire moves.
- Walk the user **step by step through tests** in logical order to eliminate potential causes.
- Include **how to perform each test, what readings or results to look for, and what they mean**.
- Mention **common mistakes and safety precautions**.

Repair steps instructions:
- Give **step-by-step repair instructions**, like a manual.
- Include **exact number of bolts, their sizes, how to remove/reinstall parts**, and any safety steps.
- Include tips to avoid mistakes and expected outcomes.

Tools instructions:
- List **all tools by name, type, and size** (e.g., \"10mm socket wrench\", \"Phillips screwdriver #2\", \"digital multimeter\").
- Include any special tools for the repair.

Additional instructions:
- Do NOT generate parts or video links — these will be handled separately.
- Include rough **time estimates and cost estimates** only.
- Always produce valid JSON **exactly matching this schema**:

\x7b
  \"overview\": string,
  \"diagnostic_steps\": string[],
  \"repair_steps\": string[],
  \"tools_needed\": string[],
  \"time_estimate\": string,
  \"cost_estimate\": string,
  \"parts\": [],   // leave empty
  \"videos\": []   // leave empty
\x7d
"

/-- The single request `callAI` issues when the credential is present. -/
def buildRequest (apiKey prompt model : String) : GroqRequest :=
  { url := "https://api.groq.com/openai/v1/chat/completions"
    bearer := apiKey
    model := model
    messages := [⟨"system", systemPrompt⟩, ⟨"user", prompt⟩]
    maxTokens := 8000
    responseFormatJsonObject := true }

/-- The provider's HTTP response to the single outbound request: the status
code and the raw body text (`response.text()` reads it on the error path,
`response.json()` parses it on the success path). -/
structure ProviderResponse where
  status : Nat
  body : String
deriving DecidableEq

/-- JavaScript `a[0]`: the first element of an array, the `"0"` field of an
object, the first character of a string, `undefined` otherwise. -/
def indexZero : JValue → Option JValue
  | JValue.arr xs => xs.head?
  | JValue.obj fs => getField (JValue.obj fs) "0"
  | JValue.str s => s.data.head?.map (fun c => JValue.str (String.mk [c]))
  | _ => none

/-- The optional chain `data.choices?.[0]?.message?.content`: `none` when
some `?.` short-circuits on a nullish intermediate value (making the whole
chain `undefined`), otherwise the content value itself. -/
def contentVal (data : JValue) : Option JValue :=
  match getField data "choices" with
  | none => none
  | some JValue.null => none
  | some a =>
    match indexZero a with
    | none => none
    | some JValue.null => none
    | some b =>
      match getField b "message" with
      | none => none
      | some JValue.null => none
      | some c => getField c "content"

/-- `data.choices?.[0]?.message?.content?.trim() ?? "\x7b\x7d"` on the parsed
success body `data`: reading `.choices` on `null` data throws; a nullish
chain yields the literal `"\x7b\x7d"`; string content is trimmed; non-string,
non-null content makes `.trim()` throw. -/
def respContent : JValue → Except CallError String
  | JValue.null => Except.error CallError.typeError
  | data =>
    match contentVal data with
    | some (JValue.str s) => Except.ok (jsTrim s)
    | some JValue.null => Except.ok "\x7b\x7d"
    | some _ => Except.error CallError.typeError
    | none => Except.ok "\x7b\x7d"

/-- `callAI` from `src/lib/ai.ts`. The ambient environment credential
`process.env.GROQ_API_KEY` is passed explicitly as `apiKey` (absent =
`none`), and the network is modelled by the provider's response `resp` to
the single outbound request. The result pairs the value or error of the
returned promise with the list of outbound requests issued, so that a
caller can observe how many network calls were made. The optional abort
signal is cooperative cancellation of the in-flight call and is outside
this sequential model. -/
def callAI (apiKey : Option String) (prompt : String) (model : String)
    (resp : ProviderResponse) : Except CallError String × List GroqRequest :=
  match apiKey with
  | none => (Except.error (CallError.config "Missing GROQ_API_KEY"), [])
  | some key =>
    if 200 ≤ resp.status ∧ resp.status ≤ 299 then
      match jsonParse resp.body with
      | none => (Except.error CallError.badBody, [buildRequest key prompt model])
      | some data => (respContent data, [buildRequest key prompt model])
    else
      (Except.error (CallError.provider resp.status resp.body), [buildRequest key prompt model])

/-- The closing bracket corresponding to an opening bracket. -/
def closerFor (c : Char) : Char :=
  if c = '{' then '}' else ']'

/-- Follows the spec's words (claim C3): the first substring that begins
with an opening bracket and ends with the CORRESPONDING closing bracket,
taking the largest (greedy) such match across the whole text. -/
def specCorrespondingMatch (raw : String) : Option String :=
  let cs := raw.data
  match cs.findIdx? isOpenBracket with
  | none => none
  | some i =>
    let close := closerFor (cs.getD i ' ')
    match cs.reverse.findIdx? (fun c => c = close) with
    | none => none
    | some k =>
      let j := cs.length - 1 - k
      if i < j then some (String.mk ((cs.drop i).take (j - i + 1))) else none

/-- Claim C1 as stated: the extractor's result always has at least one
accessible field. -/
def claimAlwaysAccessible : Prop :=
  ∀ t : String, hasAccessibleField (coerceToJSONObject t) = true

/-- Claim C3 as stated: when strict parsing fails and the spec's
corresponding-bracket substring parses, the extractor returns its parse. -/
def claimCorrespondingRecovery : Prop :=
  ∀ (t sub : String) (v : JValue),
    jsonParse (jsTrim t) = none →
    specCorrespondingMatch (jsTrim t) = some sub →
    jsonParse sub = some v →
    coerceToJSONObject t = v

/-! ## Theorems -/

/-- Helper: JavaScript stringification is the identity on a list of values
that are already strings. -/
theorem map_str_jsString (l : List String) : (l.map JValue.str).map jsString = l := by
  induction l with
  | nil => rfl
  | cons a t ih => simp [jsString, jsStringAux, ih]

/-- Helper: re-normalizing a normalized record whose `parts` and `videos`
are empty gives the record back. -/
theorem norm_round (o te ce : String) (d rs tn : List String) :
    normalizeToSchema (toJValue (NormalizedData.mk o d rs tn te ce [] [])) =
      NormalizedData.mk o d rs tn te ce [] [] := by
  have h : normalizeToSchema (toJValue (NormalizedData.mk o d rs tn te ce [] [])) =
      NormalizedData.mk o ((d.map JValue.str).map jsString) ((rs.map JValue.str).map jsString)
        ((tn.map JValue.str).map jsString) te ce [] [] := rfl
  rw [h, map_str_jsString, map_str_jsString, map_str_jsString]

/-- Claim C2 (confirmed): `normalizeToSchema` selects `overview` by the
first matching rule of the chain `overview` text, else `summary` text, else
`message` text, else the placeholder; in particular the tier-3 fallback
object with `message = "engine trouble"` yields that overview. -/
theorem normalize_overview_chain (v : JValue) :
    (normalizeToSchema v).overview = specOverview v ∧
    (normalizeToSchema (JValue.obj [("message", JValue.str "engine trouble"),
        ("parts", JValue.arr [JValue.str "x"]),
        ("videos", JValue.arr [JValue.str "y"])])).overview = "engine trouble" :=
  ⟨rfl, rfl⟩

/-- Claim C4 (confirmed): `normalizeToSchema` is a total Lean function over
every decoded value (so it accepts any shape without raising), and both on
the empty object and on `null` it returns exactly the fully-defaulted
record. -/
theorem normalize_total_defaults :
    normalizeToSchema (JValue.obj []) =
      { overview := "No overview available", diagnostic_steps := [], repair_steps := [],
        tools_needed := [], time_estimate := "N/A", cost_estimate := "N/A",
        parts := [], videos := [] } ∧
    normalizeToSchema JValue.null =
      { overview := "No overview available", diagnostic_steps := [], repair_steps := [],
        tools_needed := [], time_estimate := "N/A", cost_estimate := "N/A",
        parts := [], videos := [] } :=
  ⟨rfl, rfl⟩

/-- Claim C5 (confirmed): for every input value the normalized record has
empty `parts` and `videos`, regardless of any such fields in the input. -/
theorem normalize_forces_empty (v : JValue) :
    (normalizeToSchema v).parts = [] ∧ (normalizeToSchema v).videos = [] :=
  ⟨rfl, rfl⟩

/-- Claim C6 (confirmed): each of `diagnostic_steps`, `repair_steps` and
`tools_needed` is the input's sequence with every element stringified when
the field is a sequence (a map, so no element is discarded), else empty; in
particular `[1, 2]` becomes `["1", "2"]` and a non-array `tools_needed`
becomes `[]`. -/
theorem normalize_steps_coercion (v : JValue) :
    (normalizeToSchema v).diagnostic_steps = specStringSeq v "diagnostic_steps" ∧
    (normalizeToSchema v).repair_steps = specStringSeq v "repair_steps" ∧
    (normalizeToSchema v).tools_needed = specStringSeq v "tools_needed" ∧
    (normalizeToSchema (JValue.obj [("diagnostic_steps", JValue.arr [JValue.num 1, JValue.num 2]),
        ("tools_needed", JValue.str "not-an-array")])).diagnostic_steps = ["1", "2"] ∧
    (normalizeToSchema (JValue.obj [("diagnostic_steps", JValue.arr [JValue.num 1, JValue.num 2]),
        ("tools_needed", JValue.str "not-an-array")])).tools_needed = [] :=
  ⟨rfl, rfl, rfl, rfl, rfl⟩

/-- Claim C10 (confirmed, strengthened to every decoded value): feeding the
normalized record back through `normalizeToSchema` reproduces it, the
forced-empty `parts` and `videos` included. -/
theorem normalize_idempotent (x : JValue) :
    normalizeToSchema (toJValue (normalizeToSchema x)) = normalizeToSchema x := by
  have key : ∀ r : NormalizedData, r.parts = [] → r.videos = [] →
      normalizeToSchema (toJValue r) = r := by
    intro r hp hv
    obtain ⟨o, d, rs, tn, te, ce, p, vv⟩ := r
    have hp2 : p = [] := hp
    have hv2 : vv = [] := hv
    subst hp2
    subst hv2
    exact norm_round o te ce d rs tn
  exact key _ rfl rfl

/-- Claim C1 (corrected), counterexample: on input `"null"` the strict parse
succeeds, so the extractor returns the parsed value `null`, which has no
accessible field at all (any field access on `null` throws in JavaScript) —
refuting the claim that every result has at least one accessible field. -/
theorem coerce_accessible_cex : ¬ claimAlwaysAccessible := by
  intro h
  have hx := h "null"
  rw [show coerceToJSONObject "null" = JValue.null from rfl] at hx
  exact Bool.noConfusion hx

/-- Claim C1 (corrected, amended part): the extractor never raises, and when
the strict parse and the bracketed-substring parse both fail it returns an
object whose single field `message` holds the original trimmed text
verbatim — and that fallback does have at least one accessible field. -/
theorem coerce_fallback_message (t : String)
    (h1 : jsonParse (jsTrim t) = none)
    (h2 : ∀ sub, bracketMatch (jsTrim t) = some sub → jsonParse sub = none) :
    coerceToJSONObject t = JValue.obj [("message", JValue.str (jsTrim t))] ∧
    hasAccessibleField (coerceToJSONObject t) = true := by
  have hc : coerceToJSONObject t = JValue.obj [("message", JValue.str (jsTrim t))] := by
    cases hbm : bracketMatch (jsTrim t) with
    | none => simp only [coerceToJSONObject, h1, hbm]
    | some sub => simp only [coerceToJSONObject, h1, hbm, h2 sub hbm]
  exact ⟨hc, by rw [hc]; rfl⟩

/-- Witness for `coerce_fallback_message` at the spec's own example input
`"not json at all"`. -/
theorem coerce_fallback_message_witness :
    coerceToJSONObject "not json at all" =
      JValue.obj [("message", JValue.str "not json at all")] ∧
    hasAccessibleField (coerceToJSONObject "not json at all") = true := by
  have h2 : ∀ sub, bracketMatch (jsTrim "not json at all") = some sub →
      jsonParse sub = none := by
    intro sub hsub
    rw [show bracketMatch (jsTrim "not json at all") = none from rfl] at hsub
    exact Option.noConfusion hsub
  exact coerce_fallback_message "not json at all" rfl h2

/-- Claim C3 (corrected), counterexample: on `"x [\"a\"] y\x7d"` the spec's
corresponding-bracket rule selects `"[\"a\"]"`, which parses, so the claim
as stated predicts the array `["a"]`; the code's regex instead spans to the
last closing bracket of either kind, the substring fails to parse, and the
extractor returns the `message` fallback. -/
theorem coerce_corresponding_cex : ¬ claimCorrespondingRecovery := by
  intro h
  have hx := h "x [\"a\"] y\x7d" "[\"a\"]" (JValue.arr [JValue.str "a"]) rfl rfl rfl
  rw [show coerceToJSONObject "x [\"a\"] y\x7d" =
      JValue.obj [("message", JValue.str "x [\"a\"] y\x7d")] from rfl] at hx
  exact JValue.noConfusion hx

/-- Claim C3 (corrected, amended part): when strict parsing of the trimmed
input fails, the extractor takes the substring from the first opening
bracket to the last closing bracket of either kind (greedy across the whole
text, not necessarily the closer corresponding to the opener), and returns
its parse when that substring parses. -/
theorem coerce_bracket_recovery (t sub : String) (v : JValue)
    (h1 : jsonParse (jsTrim t) = none)
    (h2 : bracketMatch (jsTrim t) = some sub)
    (h3 : jsonParse sub = some v) :
    coerceToJSONObject t = v := by
  simp only [coerceToJSONObject, h1, h2, h3]

/-- Witness for `coerce_bracket_recovery` at the spec's own example: the
object is recovered from surrounding prose. -/
theorem coerce_bracket_recovery_witness :
    coerceToJSONObject "Here you go: \x7b\"overview\":\"x\"\x7d thanks!" =
      JValue.obj [("overview", JValue.str "x")] :=
  coerce_bracket_recovery _ "\x7b\"overview\":\"x\"\x7d" _ rfl rfl rfl

/-- Claim C7 (confirmed): with the credential absent, `callAI` fails with
the configuration error `Missing GROQ_API_KEY` and issues zero outbound
requests. -/
theorem callAI_missing_key (prompt model : String) (resp : ProviderResponse) :
    callAI none prompt model resp =
      (Except.error (CallError.config "Missing GROQ_API_KEY"), []) :=
  rfl

/-- Claim C8 (confirmed): on a non-success HTTP status, `callAI` fails with
a provider error carrying the status code and the response body text. -/
theorem callAI_http_error (key prompt model : String) (resp : ProviderResponse)
    (h : ¬ (200 ≤ resp.status ∧ resp.status ≤ 299)) :
    callAI (some key) prompt model resp =
      (Except.error (CallError.provider resp.status resp.body),
       [buildRequest key prompt model]) := by
  simp only [callAI, if_neg h]

/-- Witness for `callAI_http_error` at HTTP 500. -/
theorem callAI_http_error_witness :
    callAI (some "key") "prompt" "model" ⟨500, "Internal Server Error"⟩ =
      (Except.error (CallError.provider 500 "Internal Server Error"),
       [buildRequest "key" "prompt" "model"]) :=
  callAI_http_error "key" "prompt" "model" ⟨500, "Internal Server Error"⟩ (by decide)

/-- Claim C9 (confirmed): on a success status whose body parses to `data`,
`callAI` returns the trimmed string content of the first completion choice,
and returns the literal `"\x7b\x7d"` whenever the content chain is nullish
(content empty or missing never makes it fail). -/
theorem callAI_success_content (key prompt model : String) (resp : ProviderResponse)
    (data : JValue)
    (hok : 200 ≤ resp.status ∧ resp.status ≤ 299)
    (hparse : jsonParse resp.body = some data) :
    (∀ s, contentVal data = some (JValue.str s) →
        callAI (some key) prompt model resp =
          (Except.ok (jsTrim s), [buildRequest key prompt model])) ∧
    (data ≠ JValue.null →
      contentVal data = none ∨ contentVal data = some JValue.null →
        callAI (some key) prompt model resp =
          (Except.ok "\x7b\x7d", [buildRequest key prompt model])) := by
  have hcall : callAI (some key) prompt model resp =
      (respContent data, [buildRequest key prompt model]) := by
    simp only [callAI, if_pos hok, hparse]
  constructor
  · intro s hs
    rw [hcall]
    cases data with
    | null =>
      rw [show contentVal JValue.null = none from rfl] at hs
      exact Option.noConfusion hs
    | bool b => simp [respContent, hs]
    | num i => simp [respContent, hs]
    | str s2 => simp [respContent, hs]
    | arr xs => simp [respContent, hs]
    | obj fs => simp [respContent, hs]
  · intro hnn hcv
    rw [hcall]
    cases data with
    | null => exact absurd rfl hnn
    | bool b => rcases hcv with h | h <;> simp [respContent, h]
    | num i => rcases hcv with h | h <;> simp [respContent, h]
    | str s2 => rcases hcv with h | h <;> simp [respContent, h]
    | arr xs => rcases hcv with h | h <;> simp [respContent, h]
    | obj fs => rcases hcv with h | h <;> simp [respContent, h]

/-- Witness for `callAI_success_content`: a 200 response with one choice
whose content is `" hi "` yields the trimmed `"hi"`. -/
theorem callAI_success_content_witness :
    callAI (some "key") "prompt" "model"
        ⟨200, "\x7b\"choices\":[\x7b\"message\":\x7b\"content\":\" hi \"\x7d\x7d]\x7d"⟩ =
      (Except.ok "hi", [buildRequest "key" "prompt" "model"]) :=
  (callAI_success_content "key" "prompt" "model"
      ⟨200, "\x7b\"choices\":[\x7b\"message\":\x7b\"content\":\" hi \"\x7d\x7d]\x7d"⟩
      (JValue.obj [("choices", JValue.arr [JValue.obj [("message",
        JValue.obj [("content", JValue.str " hi ")])]])])
      (by decide) rfl).1 " hi " rfl

end RepairAI
